import Mathlib

/-!
Shallow embedding of the tesla-bot charging coordinator, token lifecycle
manager, rate-limited HTTP dispatcher and TVCP command signer, together with
theorems settling the specification claims about them.

The JavaScript source is asynchronous and effectful; here every remote read
or write is passed in explicitly (as data or as an `Except`-valued argument),
and each method becomes a pure function of the relevant instance state.
Machine numbers from the source are modelled as `Int`/`Nat`.
-/

/-- Vehicle plan priority: the coordinator assigns only `'high'` or `'normal'`
(line `priorityVehicles.includes(vehicle.id) ? 'high' : 'normal'`). -/
inductive Priority
  | high
  | normal
deriving DecidableEq, Repr

/-- Recommended action strings occurring in vehicle plan entries. -/
inductive RecAction
  | none
  | start_charging
  | delay_charging
  | schedule_off_peak
  | queue_charging
deriving DecidableEq, Repr

/-- Projection of `vehicleData.response.charge_state` used by the planner. -/
structure ChargeState where
  battery_level : Int
  charge_port_door_open : Bool
  charge_port_latch : String
deriving DecidableEq, Repr

/-- Projection of a vehicle record from `getVehicles`. -/
structure Vehicle where
  id : String
  display_name : String
  state : String
deriving DecidableEq, Repr

/-- Projection of `systemStatus.powerwallStatus` used by the planner. -/
structure PowerwallStatus where
  percentage_charged : Int
  solar_power : Int
  load_power : Int
  grid_power : Int
deriving DecidableEq, Repr

/-- One vehicle entry of a charging plan (`vehiclePlan` object in the source).
`reason` starts out absent and is set by the decision branches. -/
structure VehiclePlanEntry where
  vehicleId : String
  vehicleName : String
  currentCharge : Int
  targetCharge : Int
  chargingNeeded : Int
  isPluggedIn : Bool
  priority : Priority
  recommendedAction : RecAction
  reason : Option String
deriving DecidableEq, Repr

/-- A `plan.powerwallActions` element. -/
structure PowerwallAction where
  action : String
  currentReserve : Int
  recommendedReserve : Int
  reason : String
deriving DecidableEq, Repr

/-- A `plan.recommendations` element (`type` is a Lean keyword, hence `rtype`). -/
structure Recommendation where
  rtype : String
  message : String
  raction : String
deriving DecidableEq, Repr

/-- The charging plan value produced by `createOptimalChargingPlan`
(`createdAt` and the unused `schedule` array are omitted: no claim mentions
them and they carry no decision content). -/
structure ChargingPlan where
  vehicles : List VehiclePlanEntry
  powerwallActions : List PowerwallAction
  recommendations : List Recommendation
deriving DecidableEq, Repr

/-- Options of `createOptimalChargingPlan`, with the source's defaults. -/
structure PlanOptions where
  targetChargeLevels : List (String × Int) := []
  priorityVehicles : List String := []
  maxSimultaneousCharging : Nat := 2
  preservePowerwallReserve : Int := 20
deriving DecidableEq, Repr

/-- JavaScript `v || d` on a possibly-missing number: `undefined` and `0` are
falsy, so both fall back to the default (`targetChargeLevels[vehicle.id] || 80`). -/
def jsOrInt (v : Option Int) (d : Int) : Int :=
  match v with
  | some x => if x = 0 then d else x
  | none => d

/-- The decision policy of `createOptimalChargingPlan` (source lines 92-106):
evaluated with the guard `chargingNeeded > 0 && isPluggedIn`; outside the guard
the action stays `none` with no reason. Returns (action, reason). -/
def decideAction (chargingNeeded : Int) (isPluggedIn : Bool)
    (powerwallLevel preservePowerwallReserve solarProduction homeLoad : Int) :
    RecAction × Option String :=
  if chargingNeeded > 0 ∧ isPluggedIn then
    if powerwallLevel > preservePowerwallReserve + 30 then
      (RecAction.start_charging, some "High Powerwall level allows charging")
    else if solarProduction > homeLoad + 3000 then
      (RecAction.start_charging, some "Excess solar production available")
    else if powerwallLevel < preservePowerwallReserve then
      (RecAction.delay_charging, some "Preserve Powerwall reserve")
    else
      (RecAction.schedule_off_peak, some "Schedule for off-peak hours")
  else (RecAction.none, Option.none)

/-- Builds the `vehiclePlan` object for one online vehicle with charge state
`cs` (source lines 76-106). -/
def buildVehicleEntry (opts : PlanOptions) (v : Vehicle) (cs : ChargeState)
    (pwLevel solar load : Int) : VehiclePlanEntry :=
  let currentLevel := cs.battery_level
  let targetLevel := jsOrInt (opts.targetChargeLevels.lookup v.id) 80
  let chargingNeeded := targetLevel - currentLevel
  let isPluggedIn := cs.charge_port_door_open && (cs.charge_port_latch == "Engaged")
  let pr := if v.id ∈ opts.priorityVehicles then Priority.high else Priority.normal
  let ar := decideAction chargingNeeded isPluggedIn pwLevel
    opts.preservePowerwallReserve solar load
  { vehicleId := v.id
    vehicleName := v.display_name
    currentCharge := currentLevel
    targetCharge := targetLevel
    chargingNeeded := chargingNeeded
    isPluggedIn := isPluggedIn
    priority := pr
    recommendedAction := ar.1
    reason := ar.2 }

/-- Per-vehicle step of the planning loop (source lines 69-114): offline
vehicles are skipped, a failed or `chargeState`-less detail fetch is caught
and skips the vehicle. `getData` is the outcome `getVehicleData` would
deliver for a vehicle id. -/
def vehiclePlanFor (opts : PlanOptions)
    (getData : String → Except String (Option ChargeState))
    (pwLevel solar load : Int) (v : Vehicle) : Option VehiclePlanEntry :=
  if v.state == "online" then
    match getData v.id with
    | Except.ok (some cs) => some (buildVehicleEntry opts v cs pwLevel solar load)
    | _ => Option.none
  else Option.none

/-- The vehicle loop of `createOptimalChargingPlan`, in input order. -/
def buildVehiclePlans (opts : PlanOptions)
    (getData : String → Except String (Option ChargeState))
    (pwLevel solar load : Int) (vehicles : List Vehicle) : List VehiclePlanEntry :=
  vehicles.filterMap (vehiclePlanFor opts getData pwLevel solar load)

/-- The admission-control comparator (source lines 135-139): `'high'` sorts
before `'normal'`; equal priorities sort by descending `chargingNeeded`.
`cmpLe a b` means the comparator puts `a` before-or-with `b`
(comparator value `≤ 0`). -/
def cmpLe (a b : VehiclePlanEntry) : Bool :=
  match a.priority, b.priority with
  | Priority.high, Priority.normal => true
  | Priority.normal, Priority.high => false
  | _, _ => decide (b.chargingNeeded ≤ a.chargingNeeded)

/-- The comparator lifted to index-tagged entries (tags model object identity
in the filtered array; a stable sort keeps equal elements in tag order, as
the runtime's stable `Array.prototype.sort` does). -/
def admissionOrder (a b : Nat × VehiclePlanEntry) : Prop :=
  cmpLe a.2 b.2 = true

instance : DecidableRel admissionOrder := fun a b => by
  unfold admissionOrder; infer_instance

instance : IsTotal (Nat × VehiclePlanEntry) admissionOrder := by
  constructor
  intro a b
  unfold admissionOrder cmpLe
  rcases h1 : a.2.priority <;> rcases h2 : b.2.priority <;> simp <;> omega

instance : IsTrans (Nat × VehiclePlanEntry) admissionOrder := by
  constructor
  intro a b c
  unfold admissionOrder cmpLe
  rcases a.2.priority <;> rcases b.2.priority <;> rcases c.2.priority <;> simp <;> omega

/-- Demotion applied to an admission-control loser (source lines 141-144). -/
def demoteEntry (e : VehiclePlanEntry) : VehiclePlanEntry :=
  { e with recommendedAction := RecAction.queue_charging
           reason := some "Waiting for charging slot to become available" }

/-- Admission control (source lines 133-145): if more than
`maxSimultaneousCharging` entries carry `start_charging`, stably sort the
candidates by the comparator and demote every candidate beyond the first
`maxSimultaneousCharging` to `queue_charging`.  The filtered JS array holds
references into `plan.vehicles`, so mutating the sorted tail mutates those
same entries in place; index tags identify which entries those are. -/
def applyAdmissionControl (maxSimultaneousCharging : Nat)
    (vs : List VehiclePlanEntry) : List VehiclePlanEntry :=
  let tagged := vs.enum
  let chargingVehicles := tagged.filter
    (fun p => p.2.recommendedAction == RecAction.start_charging)
  if chargingVehicles.length > maxSimultaneousCharging then
    let sortedByPriority := List.insertionSort admissionOrder chargingVehicles
    let demotedIdx := (sortedByPriority.drop maxSimultaneousCharging).map Prod.fst
    tagged.map (fun p => if p.1 ∈ demotedIdx then demoteEntry p.2 else p.2)
  else vs

/-- `createOptimalChargingPlan` (source lines 45-151) as a pure function of
the fetched system state: the vehicle list, the per-vehicle detail outcome,
and the optional powerwall status (each `?.field || 0` read defaults to 0). -/
def createOptimalChargingPlan (opts : PlanOptions) (vehicles : List Vehicle)
    (getData : String → Except String (Option ChargeState))
    (powerwallStatus : Option PowerwallStatus) : ChargingPlan :=
  let pwLevel := (powerwallStatus.map PowerwallStatus.percentage_charged).getD 0
  let solar := (powerwallStatus.map PowerwallStatus.solar_power).getD 0
  let load := (powerwallStatus.map PowerwallStatus.load_power).getD 0
  let grid := (powerwallStatus.map PowerwallStatus.grid_power).getD 0
  let entries := buildVehiclePlans opts getData pwLevel solar load vehicles
  let pwActions :=
    if pwLevel < opts.preservePowerwallReserve ∧ grid < 0 then
      [{ action := "increase_backup_reserve"
         currentReserve := opts.preservePowerwallReserve
         recommendedReserve := min (opts.preservePowerwallReserve + 10) 100
         reason := "Low battery level and grid export detected" : PowerwallAction }]
    else []
  let recs :=
    if solar > load + 5000 ∧ pwLevel > 95 then
      [{ rtype := "energy_optimization"
         message := "High solar production and full Powerwall - excellent time for vehicle charging"
         raction := "prioritize_vehicle_charging" : Recommendation }]
    else []
  { vehicles := applyAdmissionControl opts.maxSimultaneousCharging entries
    powerwallActions := pwActions
    recommendations := recs }

/-- A credential as stored by `TeslaFleetAPI`/`TeslaAuth`:
`{access_token, refresh_token, expires_at}` with `expires_at` in
milliseconds since the epoch (`Date.now() + expires_in*1000`); `none`
models an absent field. -/
structure Token where
  access_token : String
  refresh_token : Option String
  expires_at : Option Int
deriving DecidableEq, Repr

/-- JavaScript truthiness of a possibly-missing string (`undefined`, `null`
and `""` are falsy). -/
def jsTruthyStr : Option String → Bool
  | some s => s != ""
  | Option.none => false

/-- JavaScript falsiness of a possibly-missing number (`undefined`, `null`
and `0` are falsy). -/
def jsFalsyNum : Option Int → Bool
  | some x => x == 0
  | Option.none => true

/-- `TeslaAuth.isTokenExpired` (tesla-auth.js lines 181-188): expired when
the credential or its `expires_at` is missing/falsy, or when
`now > expires_at - 60*1000` (a 60-second buffer in milliseconds). -/
def isTokenExpired (now : Int) (tokenData : Option Token) : Bool :=
  match tokenData with
  | Option.none => true
  | some t =>
    if jsFalsyNum t.expires_at then true
    else decide (now > t.expires_at.getD 0 - 60 * 1000)

deriving instance DecidableEq for Except

/-- Outcome of `TeslaFleetAPI.ensureValidToken`: the returned-or-thrown
value, the `this.tokens` field afterwards, and whether
`refreshAccessToken` was invoked. -/
structure EnsureResult where
  result : Except String Token
  tokens : Option Token
  refreshCalled : Bool
deriving DecidableEq, Repr

/-- `TeslaFleetAPI.ensureValidToken` (tesla-fleet-api.js lines 19-33) as a
function of the stored `this.tokens`, the clock, and the outcome the
refresh exchange would deliver (`refreshAccessToken` either returns a new
credential or throws).  The assignment `this.tokens = await ...` only
happens when the refresh succeeds. -/
def ensureValidToken (now : Int) (tokens : Option Token)
    (refreshOutcome : Except String Token) : EnsureResult :=
  match tokens with
  | Option.none =>
    { result := Except.error "No authentication tokens available. Please authenticate first."
      tokens := Option.none
      refreshCalled := false }
  | some t =>
    if jsTruthyStr t.refresh_token ∧ isTokenExpired now (some t) then
      match refreshOutcome with
      | Except.ok t' => { result := Except.ok t', tokens := some t', refreshCalled := true }
      | Except.error e => { result := Except.error e, tokens := some t, refreshCalled := true }
    else
      { result := Except.ok t, tokens := some t, refreshCalled := false }

/-- One queued call of the dispatcher: an identifying tag, how long the
remote call takes, and what it delivers (resolution or rejection). -/
structure QueuedItem where
  id : Nat
  latency : Nat
  result : Except String String
deriving DecidableEq, Repr

/-- `this.maxRequestsPerSecond = 20` (http-client.js line 8). -/
def maxRequestsPerSecond : Nat := 20

/-- `this.requestInterval = 1000 / this.maxRequestsPerSecond` (line 9). -/
def requestInterval : Nat := 1000 / maxRequestsPerSecond

/-- The dispatcher's mutable state: the FIFO queue and the worker flag. -/
structure ClientState where
  requestQueue : List QueuedItem
  isProcessingQueue : Bool
deriving DecidableEq, Repr

/-- `TeslaHttpClient.request` (lines 92-97): pushes the call at the back of
the queue (the promise executor runs synchronously) and then invokes
`processQueue`. -/
def request (st : ClientState) (item : QueuedItem) : ClientState :=
  { st with requestQueue := st.requestQueue ++ [item] }

/-- A settlement record: (item id, dispatch start time, delivered outcome). -/
abbrev Settlement := Nat × Nat × Except String String

/-- The drain loop of `processQueue` (lines 74-87): shift the head, dispatch
it at the current instant, await its completion, settle exactly that item's
promise with that call's own outcome (`resolve` in `try`, `reject` in
`catch`), then wait `requestInterval` before the next dispatch if any call
remains. -/
def drainQueue (t : Nat) : List QueuedItem → List Settlement
  | [] => []
  | item :: rest =>
    let waitNext := if rest.isEmpty then 0 else requestInterval
    (item.id, t, item.result) :: drainQueue (t + item.latency + waitNext) rest

/-- `processQueue` (lines 67-90): the guard returns immediately when a
worker is already running or the queue is empty, producing no dispatch;
otherwise this invocation becomes the single worker, drains the whole
queue and clears the flag. -/
def processQueue (st : ClientState) (t : Nat) : ClientState × List Settlement :=
  if st.isProcessingQueue || st.requestQueue.isEmpty then (st, [])
  else ({ requestQueue := [], isProcessingQueue := false }, drainQueue t st.requestQueue)

/-- The object serialized by `JSON.stringify(commandPayload)`
(tvcp-client.js lines 19-26): exactly the six fields
`command, vehicle_id, parameters, timestamp, nonce, domain`. -/
structure TVCPPayload where
  command : String
  vehicle_id : String
  parameters : List (String × Int)
  timestamp : Int
  nonce : String
  domain : String
deriving DecidableEq, Repr

/-- Models `crypto.sign('RSA-SHA256', Buffer.from(JSON.stringify(payload)), key)`
as an ideal signature: the abstract signature value is determined by the
key and the serialized payload, and `JSON.stringify` is injective on the
payload record (string values are escaped), so the signed message is
carried as the payload value itself.  The RSA computation is outside the
embedding. -/
structure RSASignature where
  key : String
  signedPayload : TVCPPayload
deriving DecidableEq, Repr

/-- The signing operation. -/
def rsaSign (key : String) (payload : TVCPPayload) : RSASignature :=
  { key := key, signedPayload := payload }

/-- Verification under the public key of the pair whose private key is
`key`: the signature must be the one the private key produces on the
message the verifier reconstructs. -/
def rsaVerify (key : String) (payload : TVCPPayload) (sig : RSASignature) : Bool :=
  decide (sig = rsaSign key payload)

/-- Return value of `generateSignedCommand` (lines 33-37). -/
structure SignedCommand where
  payload : TVCPPayload
  signature : RSASignature
  algorithm : String
deriving DecidableEq, Repr

/-- The request body returned by `createTVCPRequest` (lines 44-52): note it
transmits `command, parameters, domain, timestamp, nonce, signature,
algorithm` — not `vehicle_id`, which travels in the URL path. -/
structure TVCPRequest where
  command : String
  parameters : List (String × Int)
  domain : String
  timestamp : Int
  nonce : String
  signature : RSASignature
  algorithm : String
deriving DecidableEq, Repr

/-- `TVCPClient.generateSignedCommand` (lines 10-38) as a function of the
configured key and domain, the clock (`Math.floor(Date.now()/1000)`), and
the nonce hex string produced by `crypto.randomBytes(16).toString('hex')`
for this call. -/
def generateSignedCommand (privateKey : Option String) (domain : String)
    (nowSeconds : Int) (nonceHex : String) (command vehicleId : String)
    (parameters : List (String × Int)) : Except String SignedCommand :=
  if jsTruthyStr privateKey then
    let commandPayload : TVCPPayload :=
      { command := command, vehicle_id := vehicleId, parameters := parameters
        timestamp := nowSeconds, nonce := nonceHex, domain := domain }
    Except.ok
      { payload := commandPayload
        signature := rsaSign (privateKey.getD "") commandPayload
        algorithm := "RS256" }
  else Except.error "Private key required for TVCP commands"

/-- `TVCPClient.createTVCPRequest` (lines 41-53). -/
def createTVCPRequest (privateKey : Option String) (domain : String)
    (nowSeconds : Int) (nonceHex : String) (command vehicleId : String)
    (parameters : List (String × Int)) : Except String TVCPRequest :=
  (generateSignedCommand privateKey domain nowSeconds nonceHex command vehicleId
    parameters).map fun signedCommand =>
    { command := signedCommand.payload.command
      parameters := signedCommand.payload.parameters
      domain := domain
      timestamp := signedCommand.payload.timestamp
      nonce := signedCommand.payload.nonce
      signature := signedCommand.signature
      algorithm := signedCommand.algorithm }

/-- The payload a remote verifier reconstructs from a transmitted request
body plus the vehicle id taken from the URL path. -/
def payloadOfRequest (vehicleId : String) (r : TVCPRequest) : TVCPPayload :=
  { command := r.command, vehicle_id := vehicleId, parameters := r.parameters
    timestamp := r.timestamp, nonce := r.nonce, domain := r.domain }

/-- Names of the fields covered by the signature (the serialized payload). -/
def tvcpSignedFields : List String :=
  ["command", "vehicle_id", "parameters", "timestamp", "nonce", "domain"]

/-- Names of the fields transmitted in the request body. -/
def tvcpEnvelopeFields : List String :=
  ["command", "parameters", "domain", "timestamp", "nonce", "signature", "algorithm"]

/-- One record pushed into `executed`/`failed`/`skipped`.  Vehicle records
carry `some vehicleId`; powerwall records carry no vehicle id.  `note` is
the `message` or `error` string. -/
structure ExecRecord where
  vehicleId : Option String
  action : String
  note : String
deriving DecidableEq, Repr

/-- The `results` object of `executeChargingPlan`. -/
structure ExecutionResults where
  executed : List ExecRecord
  failed : List ExecRecord
  skipped : List ExecRecord
deriving DecidableEq, Repr

/-- Which list a record is pushed into. -/
inductive Bucket
  | executed
  | failed
  | skipped
deriving DecidableEq, Repr

/-- The action strings as they appear in result records. -/
def actionString : RecAction → String
  | RecAction.none => "none"
  | RecAction.start_charging => "start_charging"
  | RecAction.delay_charging => "delay_charging"
  | RecAction.schedule_off_peak => "schedule_off_peak"
  | RecAction.queue_charging => "queue_charging"

/-- The per-entry `switch` with its surrounding `try`/`catch`
(charging-coordinator source lines 160-212): `start_charging`,
`delay_charging` and `schedule_off_peak` each issue one remote command
whose outcome is `outcome`; success pushes into `executed`, an exception
into `failed` (with the entry's own action string); `queue_charging` and
the `default` case (which covers `none`) push into `skipped` without any
remote call. -/
def vehicleStep (offPeakTime : Int) (e : VehiclePlanEntry)
    (outcome : Except String Unit) : Bucket × ExecRecord :=
  match e.recommendedAction with
  | RecAction.start_charging =>
    match outcome with
    | Except.ok _ =>
      (Bucket.executed, ⟨some e.vehicleId, "start_charging", "Charging started successfully"⟩)
    | Except.error msg =>
      (Bucket.failed, ⟨some e.vehicleId, actionString e.recommendedAction, msg⟩)
  | RecAction.delay_charging =>
    match outcome with
    | Except.ok _ =>
      (Bucket.executed, ⟨some e.vehicleId, "delay_charging", "Charging delayed to preserve Powerwall"⟩)
    | Except.error msg =>
      (Bucket.failed, ⟨some e.vehicleId, actionString e.recommendedAction, msg⟩)
  | RecAction.schedule_off_peak =>
    match outcome with
    | Except.ok _ =>
      (Bucket.executed, ⟨some e.vehicleId, "schedule_off_peak",
        "Charging scheduled for " ++ toString offPeakTime⟩)
    | Except.error msg =>
      (Bucket.failed, ⟨some e.vehicleId, actionString e.recommendedAction, msg⟩)
  | RecAction.queue_charging =>
    (Bucket.skipped, ⟨some e.vehicleId, "queue_charging", "Added to charging queue"⟩)
  | RecAction.none =>
    (Bucket.skipped, ⟨some e.vehicleId, "none", "No action required"⟩)

/-- The vehicle loop of `executeChargingPlan` (lines 160-213), entry `i`
onward: each entry's record is appended to its bucket independently;
`vehicleOutcomes i` is the outcome of the remote command the `i`-th entry
triggers (irrelevant for entries that trigger none). -/
def execVehicles (offPeakTime : Int) (vehicleOutcomes : Nat → Except String Unit)
    (i : Nat) : List VehiclePlanEntry → ExecutionResults
  | [] => ⟨[], [], []⟩
  | e :: rest =>
    let br := vehicleStep offPeakTime e (vehicleOutcomes i)
    let tail := execVehicles offPeakTime vehicleOutcomes (i + 1) rest
    match br.1 with
    | Bucket.executed => ⟨br.2 :: tail.executed, tail.failed, tail.skipped⟩
    | Bucket.failed => ⟨tail.executed, br.2 :: tail.failed, tail.skipped⟩
    | Bucket.skipped => ⟨tail.executed, tail.failed, br.2 :: tail.skipped⟩

/-- One iteration of the powerwall loop (lines 215-231): only
`increase_backup_reserve` actions do anything; `outcome` combines the
`getEnergyProducts` and `setBackupReserve` calls inside the `try`. -/
def powerwallStep (a : PowerwallAction) (outcome : Except String Unit) :
    Option (Bucket × ExecRecord) :=
  if a.action == "increase_backup_reserve" then
    some (match outcome with
      | Except.ok _ =>
        (Bucket.executed, ⟨Option.none, "increase_backup_reserve",
          "Backup reserve increased to " ++ toString a.recommendedReserve ++ "%"⟩)
      | Except.error msg => (Bucket.failed, ⟨Option.none, a.action, msg⟩))
  else Option.none

/-- The powerwall loop of `executeChargingPlan`, action `i` onward. -/
def execPowerwalls (powerwallOutcomes : Nat → Except String Unit)
    (i : Nat) : List PowerwallAction → ExecutionResults
  | [] => ⟨[], [], []⟩
  | a :: rest =>
    let tail := execPowerwalls powerwallOutcomes (i + 1) rest
    match powerwallStep a (powerwallOutcomes i) with
    | some (Bucket.executed, r) => ⟨r :: tail.executed, tail.failed, tail.skipped⟩
    | some (Bucket.failed, r) => ⟨tail.executed, r :: tail.failed, tail.skipped⟩
    | some (Bucket.skipped, r) => ⟨tail.executed, tail.failed, r :: tail.skipped⟩
    | Option.none => tail

/-- `executeChargingPlan` (lines 153-234): vehicle entries first, then
powerwall actions, records pushed in iteration order. -/
def executeChargingPlan (offPeakTime : Int)
    (vehicleOutcomes powerwallOutcomes : Nat → Except String Unit)
    (plan : ChargingPlan) : ExecutionResults :=
  let rv := execVehicles offPeakTime vehicleOutcomes 0 plan.vehicles
  let rp := execPowerwalls powerwallOutcomes 0 plan.powerwallActions
  ⟨rv.executed ++ rp.executed, rv.failed ++ rp.failed, rv.skipped ++ rp.skipped⟩

/-- The only mutable coordinator state guarding loop re-entry. -/
structure CoordinatorState where
  isActive : Bool
deriving DecidableEq, Repr

/-- Return value of `startAutomaticCoordination`. -/
structure StartResult where
  message : String
  intervalMinutes : Int
  autoExecute : Bool
deriving DecidableEq, Repr

/-- `startAutomaticCoordination` (lines 249-293): throws when already
active, otherwise sets the flag and starts the loop. -/
def startAutomaticCoordination (s : CoordinatorState)
    (intervalMinutes : Int) (autoExecute : Bool) :
    Except String (CoordinatorState × StartResult) :=
  if s.isActive then Except.error "Automatic coordination is already active"
  else Except.ok ({ isActive := true },
    { message := "Automatic coordination started"
      intervalMinutes := intervalMinutes
      autoExecute := autoExecute })

/-- `stopAutomaticCoordination` (lines 295-303): throws when not active,
otherwise clears the flag. -/
def stopAutomaticCoordination (s : CoordinatorState) :
    Except String (CoordinatorState × String) :=
  if !s.isActive then Except.error "Automatic coordination is not active"
  else Except.ok ({ isActive := false }, "Automatic coordination stopped")

/-- One firing of `coordinationLoop` (lines 263-289): `activeAtEntry` is
`this.isActive` when the callback starts (the early `return` guard),
`activeAfterBody` is `this.isActive` after the body's awaits complete (a
stop during the in-flight cycle clears it).  Returns (body ran,
`setTimeout` re-scheduled a next cycle). -/
def coordinationLoopIteration (activeAtEntry activeAfterBody : Bool) : Bool × Bool :=
  if !activeAtEntry then (false, false)
  else (true, activeAfterBody)

/-- A request body handed to `httpClient.post`, i.e. enqueued on the
dispatcher. -/
structure EnqueuedRequest where
  method : String
  url : String
  body : TVCPRequest
deriving DecidableEq, Repr

/-- `TeslaFleetAPI.setChargingAmps` (tesla-fleet-api.js lines 92-108) as a
function of the `ensureValidToken` outcome, the `createTVCPRequest`
outcome, the HTTP outcome, and the amps argument.  Returns the
returned-or-thrown value together with the list of requests enqueued on
the dispatcher during the call. -/
def setChargingAmps (ensure : EnsureResult)
    (tvcpResult : Except String TVCPRequest) (postOutcome : Except String String)
    (vehicleId : String) (chargingAmps : Int) :
    Except String String × List EnqueuedRequest :=
  match ensure.result with
  | Except.error e => (Except.error e, [])
  | Except.ok _ =>
    if chargingAmps < 5 ∨ chargingAmps > 48 then
      (Except.error "Charging amps must be between 5 and 48", [])
    else
      match tvcpResult with
      | Except.error e => (Except.error ("Failed to set charging amps: " ++ e), [])
      | Except.ok cmd =>
        let req : EnqueuedRequest :=
          ⟨"post", "/api/1/vehicles/" ++ vehicleId ++ "/command/set_charging_amps", cmd⟩
        match postOutcome with
        | Except.ok resp => (Except.ok resp, [req])
        | Except.error e => (Except.error ("Failed to set charging amps: " ++ e), [req])

/-- `TeslaFleetAPI.setChargeLimit` (tesla-fleet-api.js lines 110-126),
modelled like `setChargingAmps`. -/
def setChargeLimit (ensure : EnsureResult)
    (tvcpResult : Except String TVCPRequest) (postOutcome : Except String String)
    (vehicleId : String) (percent : Int) :
    Except String String × List EnqueuedRequest :=
  match ensure.result with
  | Except.error e => (Except.error e, [])
  | Except.ok _ =>
    if percent < 50 ∨ percent > 100 then
      (Except.error "Charge limit must be between 50% and 100%", [])
    else
      match tvcpResult with
      | Except.error e => (Except.error ("Failed to set charge limit: " ++ e), [])
      | Except.ok cmd =>
        let req : EnqueuedRequest :=
          ⟨"post", "/api/1/vehicles/" ++ vehicleId ++ "/command/set_charge_limit", cmd⟩
        match postOutcome with
        | Except.ok resp => (Except.ok resp, [req])
        | Except.error e => (Except.error ("Failed to set charge limit: " ++ e), [req])

/-- C3: `ensureValidToken` performs a refresh exchange exactly when a refresh
token is present and `now > expiresAt - 60s`; in every other case — token
still fresh, or expired but carrying no refresh token — it returns the
stored credential unchanged with no refresh call; in particular an expired
credential without a refresh token is returned as-is rather than raising an
error.  (Times in milliseconds; `expires_at` is assumed present and
non-zero, as `exchangeCodeForTokens`/`refreshAccessToken` always set it.) -/
theorem ensureValidToken_refresh_policy
    (now : Int) (t : Token) (e : Int) (refreshOutcome : Except String Token)
    (he : t.expires_at = some e) (hez : e ≠ 0) :
    ((ensureValidToken now (some t) refreshOutcome).refreshCalled = true ↔
      (jsTruthyStr t.refresh_token = true ∧ now > e - 60 * 1000)) ∧
    (¬(jsTruthyStr t.refresh_token = true ∧ now > e - 60 * 1000) →
      ensureValidToken now (some t) refreshOutcome =
        { result := Except.ok t, tokens := some t, refreshCalled := false }) ∧
    (jsTruthyStr t.refresh_token = false →
      ensureValidToken now (some t) refreshOutcome =
        { result := Except.ok t, tokens := some t, refreshCalled := false }) := by
  have hexp : isTokenExpired now (some t) = decide (now > e - 60 * 1000) := by
    simp [isTokenExpired, he, jsFalsyNum, hez]
  constructor
  · simp only [ensureValidToken]
    rw [hexp]
    by_cases hr : jsTruthyStr t.refresh_token = true <;>
      by_cases hn : now > e - 60 * 1000 <;>
        cases refreshOutcome <;> simp [hr, hn] <;> split <;> simp_all
  constructor
  · intro hno
    simp only [ensureValidToken]
    rw [hexp]
    by_cases hr : jsTruthyStr t.refresh_token = true
    · have hn : ¬(now > e - 60 * 1000) := fun hn => hno ⟨hr, hn⟩
      simp [hr, hn]
      intro hcontra
      exact absurd hcontra (by omega)
    · simp [hr]
  · intro hr
    simp only [ensureValidToken]
    simp [hr]

/-- Witness for C3: an expired credential (expiry 1000 ms, clock far past it)
with no refresh token is returned unchanged, with no refresh call, even
though the refresh exchange would have failed. -/
theorem ensureValidToken_refresh_policy_witness :
    ensureValidToken 2000000000 (some ⟨"tok", Option.none, some 1000⟩)
        (Except.error "Token refresh failed: boom") =
      { result := Except.ok ⟨"tok", Option.none, some 1000⟩
        tokens := some ⟨"tok", Option.none, some 1000⟩
        refreshCalled := false } :=
  (ensureValidToken_refresh_policy 2000000000 ⟨"tok", Option.none, some 1000⟩ 1000
    (Except.error "Token refresh failed: boom") rfl (by decide)).2.2 (by decide)

/-- C6: when the refresh exchange performed inside `ensureValidToken` fails,
the failure propagates to the caller and `this.tokens` is left exactly as it
was before the call. -/
theorem ensureValidToken_failed_refresh_preserves_tokens
    (now : Int) (t : Token) (err : String)
    (hr : jsTruthyStr t.refresh_token = true)
    (hx : isTokenExpired now (some t) = true) :
    (ensureValidToken now (some t) (Except.error err)).result = Except.error err ∧
    (ensureValidToken now (some t) (Except.error err)).tokens = some t := by
  simp only [ensureValidToken]
  simp [hr, hx]

/-- Witness for C6: a concrete expired credential with a refresh token whose
refresh exchange fails. -/
theorem ensureValidToken_failed_refresh_preserves_tokens_witness :
    (ensureValidToken 2000000000 (some ⟨"tok", some "rt", some 1000⟩)
        (Except.error "Token refresh failed: bad client")).result =
      Except.error "Token refresh failed: bad client" ∧
    (ensureValidToken 2000000000 (some ⟨"tok", some "rt", some 1000⟩)
        (Except.error "Token refresh failed: bad client")).tokens =
      some ⟨"tok", some "rt", some 1000⟩ :=
  ensureValidToken_failed_refresh_preserves_tokens 2000000000
    ⟨"tok", some "rt", some 1000⟩ "Token refresh failed: bad client"
    (by decide) (by decide)

/-- C9: `startAutomaticCoordination` throws the already-active error iff a
loop is active, `stopAutomaticCoordination` throws the not-active error iff
none is, and a successful stop clears the flag, after which a loop callback
firing finds the flag cleared and neither runs nor reschedules — while an
in-flight cycle (entered while still active) finishes its body but schedules
no further cycle. -/
theorem coordination_loop_lifecycle
    (s : CoordinatorState) (intervalMinutes : Int) (autoExecute : Bool) :
    ((∃ e, startAutomaticCoordination s intervalMinutes autoExecute = Except.error e) ↔
      s.isActive = true) ∧
    ((∃ e, stopAutomaticCoordination s = Except.error e) ↔ s.isActive = false) ∧
    (∀ s' msg, stopAutomaticCoordination s = Except.ok (s', msg) →
      s'.isActive = false ∧
      coordinationLoopIteration s'.isActive autoExecute = (false, false) ∧
      coordinationLoopIteration true s'.isActive = (true, false)) := by
  refine ⟨?_, ?_, ?_⟩
  · unfold startAutomaticCoordination
    by_cases h : s.isActive = true <;> simp [h]
  · unfold stopAutomaticCoordination
    by_cases h : s.isActive = true <;> simp [h]
  · intro s' msg h
    unfold stopAutomaticCoordination at h
    by_cases hs : s.isActive = true <;> simp [hs] at h
    obtain ⟨h1, _⟩ := h
    subst h1
    exact ⟨rfl, rfl, rfl⟩

/-- Witness for C9: starting from an active coordinator, stop succeeds,
clears the flag, and the next callback firing does nothing and schedules
nothing. -/
theorem coordination_loop_lifecycle_witness :
    ((∃ e, startAutomaticCoordination ⟨true⟩ 15 false = Except.error e) ↔
      (⟨true⟩ : CoordinatorState).isActive = true) ∧
    ((∃ e, stopAutomaticCoordination ⟨true⟩ = Except.error e) ↔
      (⟨true⟩ : CoordinatorState).isActive = false) ∧
    (∀ s' msg, stopAutomaticCoordination ⟨true⟩ = Except.ok (s', msg) →
      s'.isActive = false ∧
      coordinationLoopIteration s'.isActive false = (false, false) ∧
      coordinationLoopIteration true s'.isActive = (true, false)) :=
  coordination_loop_lifecycle ⟨true⟩ 15 false

/-- C10: for every amps value outside the inclusive range 5-48,
`setChargingAmps` throws, and for every percent outside the inclusive range
50-100, `setChargeLimit` throws — in each case with nothing enqueued on the
dispatcher, so no remote command is issued for out-of-range input,
whatever the token state and the signer/HTTP outcomes. -/
theorem command_range_guards
    (ensure : EnsureResult) (tvcpResult : Except String TVCPRequest)
    (postOutcome : Except String String) (vehicleId : String)
    (chargingAmps percent : Int)
    (hamps : chargingAmps < 5 ∨ chargingAmps > 48)
    (hpct : percent < 50 ∨ percent > 100) :
    (∃ e, (setChargingAmps ensure tvcpResult postOutcome vehicleId chargingAmps).1 =
      Except.error e) ∧
    (setChargingAmps ensure tvcpResult postOutcome vehicleId chargingAmps).2 = [] ∧
    (∃ e, (setChargeLimit ensure tvcpResult postOutcome vehicleId percent).1 =
      Except.error e) ∧
    (setChargeLimit ensure tvcpResult postOutcome vehicleId percent).2 = [] := by
  rcases hres : ensure.result with err | tok <;>
    simp [setChargingAmps, setChargeLimit, hres, hamps, hpct]

/-- Witness for C10: amps 49 and percent 101 are rejected with nothing
enqueued, even with a valid token and a signer and HTTP layer that would
have succeeded. -/
theorem command_range_guards_witness :
    (∃ e, (setChargingAmps ⟨Except.ok ⟨"t", Option.none, some 1⟩, some ⟨"t", Option.none, some 1⟩, false⟩
      (Except.error "k") (Except.ok "resp") "v1" 49).1 = Except.error e) ∧
    (setChargingAmps ⟨Except.ok ⟨"t", Option.none, some 1⟩, some ⟨"t", Option.none, some 1⟩, false⟩
      (Except.error "k") (Except.ok "resp") "v1" 49).2 = [] ∧
    (∃ e, (setChargeLimit ⟨Except.ok ⟨"t", Option.none, some 1⟩, some ⟨"t", Option.none, some 1⟩, false⟩
      (Except.error "k") (Except.ok "resp") "v1" 101).1 = Except.error e) ∧
    (setChargeLimit ⟨Except.ok ⟨"t", Option.none, some 1⟩, some ⟨"t", Option.none, some 1⟩, false⟩
      (Except.error "k") (Except.ok "resp") "v1" 101).2 = [] :=
  command_range_guards _ _ _ "v1" 49 101 (by decide) (by decide)

/-- C4: calls submitted through `request` are enqueued at the back of the
FIFO queue, and the drain loop settles exactly one promise per queued item,
in submission order, each with that call's own outcome — so a failing
remote call is delivered to its own item and later items are still
serviced. -/
theorem dispatcher_fifo_exactly_once
    (st : ClientState) (item : QueuedItem) (items : List QueuedItem) (t i : Nat) :
    (request st item).requestQueue = st.requestQueue ++ [item] ∧
    (drainQueue t items).length = items.length ∧
    ((drainQueue t items)[i]?).map (fun s => (s.1, s.2.2)) =
      (items[i]?).map (fun q => (q.id, q.result)) := by
  refine ⟨rfl, ?_, ?_⟩
  · induction items generalizing t with
    | nil => rfl
    | cons x rest ih => simp [drainQueue, ih]
  · induction items generalizing t i with
    | nil => simp [drainQueue]
    | cons x rest ih =>
      cases i with
      | zero => simp [drainQueue]
      | succ j =>
        simp only [drainQueue, List.getElem?_cons_succ]
        exact ih _ j

/-- C5: the dispatcher's pacing constants come straight from the
constructor (`1000 / 20 = 50` ms); consecutive dispatch start times in a
drain are separated by at least `requestInterval` milliseconds; and a
`processQueue` invocation that finds the worker flag set returns at once,
dispatching nothing and leaving the state unchanged, so concurrent
submissions never spawn a second concurrent worker. -/
theorem dispatcher_rate_limit
    (items : List QueuedItem) (t i : Nat) (a b : Settlement)
    (ha : (drainQueue t items)[i]? = some a)
    (hb : (drainQueue t items)[i + 1]? = some b)
    (busy : ClientState) (hbusy : busy.isProcessingQueue = true) :
    requestInterval = 1000 / maxRequestsPerSecond ∧
    requestInterval = 50 ∧
    a.2.1 + requestInterval ≤ b.2.1 ∧
    processQueue busy t = (busy, []) := by
  refine ⟨rfl, rfl, ?_, by simp [processQueue, hbusy]⟩
  induction items generalizing t i with
  | nil => simp [drainQueue] at ha
  | cons x rest ih =>
    cases i with
    | zero =>
      cases rest with
      | nil => simp [drainQueue] at hb
      | cons y rest2 =>
        simp [drainQueue] at ha hb
        subst ha
        subst hb
        simp
    | succ j =>
      simp only [drainQueue, List.getElem?_cons_succ] at ha hb
      exact ih _ j ha hb

/-- Witness for C5: a two-item drain starting at t=0 dispatches at 0 and 55
(5 ms latency + 50 ms interval), and a busy dispatcher with a non-empty
queue ignores a re-entrant `processQueue` invocation. -/
theorem dispatcher_rate_limit_witness :
    requestInterval = 1000 / maxRequestsPerSecond ∧
    requestInterval = 50 ∧
    (0 : Nat) + requestInterval ≤ 55 ∧
    processQueue ⟨[⟨2, 1, Except.ok "x"⟩], true⟩ 0 = (⟨[⟨2, 1, Except.ok "x"⟩], true⟩, []) := by
  have h := dispatcher_rate_limit
    [⟨0, 5, Except.ok "r0"⟩, ⟨1, 7, Except.error "boom"⟩] 0 0
    (0, 0, Except.ok "r0") (1, 55, Except.error "boom")
    (by decide) (by decide) ⟨[⟨2, 1, Except.ok "x"⟩], true⟩ rfl
  exact h

/-- C7 counterexample: the signature does NOT cover exactly the fields
transmitted in the envelope, and altering a transmitted field after signing
does not always invalidate verification.  Concretely, for the envelope
built for `charging_start` on vehicle `veh1`, changing the transmitted
`algorithm` field to `"rogue"` yields a different envelope that still
verifies under the corresponding public key (the signed payload omits
`algorithm`); moreover `vehicle_id` is covered by the signature but is not
a transmitted envelope field, while `algorithm` is transmitted but not
covered. -/
theorem tvcp_signature_coverage_counterexample :
    ((createTVCPRequest (some "k") "dom" 111 "abcdef" "charging_start" "veh1" []).map
      (fun r =>
        let altered := { r with algorithm := "rogue" }
        decide (altered ≠ r) && rsaVerify "k" (payloadOfRequest "veh1" altered) altered.signature)
      = Except.ok true) ∧
    "vehicle_id" ∈ tvcpSignedFields ∧ ¬ "vehicle_id" ∈ tvcpEnvelopeFields ∧
    "algorithm" ∈ tvcpEnvelopeFields ∧ ¬ "algorithm" ∈ tvcpSignedFields := by
  exact ⟨by decide, by decide, by decide, by decide, by decide⟩

/-- C7 (amended): for every command, vehicleId and parameters, with a
private key configured, the envelope returned by `createTVCPRequest`
carries `timestamp` = the current Unix seconds, the per-call nonce,
`algorithm` = `"RS256"`, and an RSA-SHA256 signature that verifies under
the corresponding public key and covers exactly the payload fields
`{command, vehicle_id, parameters, timestamp, nonce, domain}` — that is,
the transmitted fields except `algorithm` (and the signature itself), plus
`vehicle_id`, which travels in the URL path rather than in the envelope.
Altering any covered field after signing invalidates verification;
altering the uncovered `algorithm` field does not. -/
theorem createTVCPRequest_signature
    (privateKey : Option String) (key domain : String) (nowSeconds : Int)
    (nonceHex : String) (command vehicleId : String) (params : List (String × Int))
    (hk : privateKey = some key) (hk0 : key ≠ "") :
    ∃ r : TVCPRequest,
      createTVCPRequest privateKey domain nowSeconds nonceHex command vehicleId params
        = Except.ok r ∧
      r.timestamp = nowSeconds ∧ r.nonce = nonceHex ∧ r.algorithm = "RS256" ∧
      r.command = command ∧ r.parameters = params ∧ r.domain = domain ∧
      payloadOfRequest vehicleId r =
        ⟨command, vehicleId, params, nowSeconds, nonceHex, domain⟩ ∧
      r.signature = rsaSign key (payloadOfRequest vehicleId r) ∧
      rsaVerify key (payloadOfRequest vehicleId r) r.signature = true ∧
      (∀ (vid' : String) (r' : TVCPRequest), r'.signature = r.signature →
        payloadOfRequest vid' r' ≠ payloadOfRequest vehicleId r →
        rsaVerify key (payloadOfRequest vid' r') r'.signature = false) ∧
      (∀ alg : String,
        rsaVerify key (payloadOfRequest vehicleId { r with algorithm := alg })
          r.signature = true) := by
  subst hk
  have htruthy : jsTruthyStr (some key) = true := by
    simp [jsTruthyStr]
    exact hk0
  refine ⟨{ command := command, parameters := params, domain := domain
            timestamp := nowSeconds, nonce := nonceHex
            signature := rsaSign key ⟨command, vehicleId, params, nowSeconds, nonceHex, domain⟩
            algorithm := "RS256" }, ?_, rfl, rfl, rfl, rfl, rfl, rfl, rfl, ?_, ?_, ?_, ?_⟩
  · simp [createTVCPRequest, generateSignedCommand, htruthy]
    rfl
  · simp [payloadOfRequest, rsaSign]
  · simp [rsaVerify, payloadOfRequest]
  · intro vid' r' hsig hne
    simp only [rsaVerify, decide_eq_false_iff_not]
    intro hcontra
    apply hne
    have : rsaSign key (payloadOfRequest vid' r') = rsaSign key (payloadOfRequest vehicleId
        { command := command, parameters := params, domain := domain
          timestamp := nowSeconds, nonce := nonceHex
          signature := rsaSign key ⟨command, vehicleId, params, nowSeconds, nonceHex, domain⟩
          algorithm := "RS256" }) := by
      rw [← hcontra, hsig]
      simp [payloadOfRequest, rsaSign]
    exact congrArg RSASignature.signedPayload this
  · intro alg
    simp [rsaVerify, payloadOfRequest, rsaSign]

/-- Witness for C7 (amended): concrete envelope for `charging_start` on
vehicle `veh1` with key `"k"`. -/
theorem createTVCPRequest_signature_witness :
    ∃ r : TVCPRequest,
      createTVCPRequest (some "k") "dom" 111 "abcdef" "charging_start" "veh1" []
        = Except.ok r ∧
      r.timestamp = 111 ∧ r.nonce = "abcdef" ∧ r.algorithm = "RS256" ∧
      r.command = "charging_start" ∧ r.parameters = [] ∧ r.domain = "dom" ∧
      payloadOfRequest "veh1" r =
        ⟨"charging_start", "veh1", [], 111, "abcdef", "dom"⟩ ∧
      r.signature = rsaSign "k" (payloadOfRequest "veh1" r) ∧
      rsaVerify "k" (payloadOfRequest "veh1" r) r.signature = true ∧
      (∀ (vid' : String) (r' : TVCPRequest), r'.signature = r.signature →
        payloadOfRequest vid' r' ≠ payloadOfRequest "veh1" r →
        rsaVerify "k" (payloadOfRequest vid' r') r'.signature = false) ∧
      (∀ alg : String,
        rsaVerify "k" (payloadOfRequest "veh1" { r with algorithm := alg })
          r.signature = true) :=
  createTVCPRequest_signature (some "k") "k" "dom" 111 "abcdef" "charging_start"
    "veh1" [] rfl (by decide)

/-- The list a bucket refers to. -/
def bucketList (res : ExecutionResults) : Bucket → List ExecRecord
  | Bucket.executed => res.executed
  | Bucket.failed => res.failed
  | Bucket.skipped => res.skipped

theorem execVehicles_cons_bucket (off : Int) (outs : Nat → Except String Unit)
    (i : Nat) (x : VehiclePlanEntry) (rest : List VehiclePlanEntry) (b : Bucket) :
    bucketList (execVehicles off outs i (x :: rest)) b =
      (if (vehicleStep off x (outs i)).1 = b
        then [(vehicleStep off x (outs i)).2] else []) ++
      bucketList (execVehicles off outs (i + 1) rest) b := by
  rcases hb : (vehicleStep off x (outs i)).1 <;> rcases b <;>
    simp [execVehicles, hb, bucketList]

theorem execVehicles_length (off : Int) (outs : Nat → Except String Unit) :
    ∀ (vs : List VehiclePlanEntry) (i : Nat),
      (execVehicles off outs i vs).executed.length +
      (execVehicles off outs i vs).failed.length +
      (execVehicles off outs i vs).skipped.length = vs.length := by
  intro vs
  induction vs with
  | nil => intro i; rfl
  | cons x rest ih =>
    intro i
    have h := ih (i + 1)
    rcases hb : (vehicleStep off x (outs i)).1 <;>
      simp [execVehicles, hb] <;> omega

theorem execVehicles_mem_bucket (off : Int) (outs : Nat → Except String Unit) :
    ∀ (vs : List VehiclePlanEntry) (i j : Nat) (e : VehiclePlanEntry),
      vs[j]? = some e →
      (vehicleStep off e (outs (i + j))).2 ∈
        bucketList (execVehicles off outs i vs) (vehicleStep off e (outs (i + j))).1 := by
  intro vs
  induction vs with
  | nil => intro i j e h; simp at h
  | cons x rest ih =>
    intro i j e h
    cases j with
    | zero =>
      simp at h
      subst h
      rw [execVehicles_cons_bucket]
      simp
    | succ j' =>
      simp at h
      have harith : i + (j' + 1) = (i + 1) + j' := by omega
      rw [harith, execVehicles_cons_bucket]
      exact List.mem_append_right _ (ih (i + 1) j' e h)

theorem vehicleStep_vehicleId (off : Int) (e : VehiclePlanEntry)
    (o : Except String Unit) :
    (vehicleStep off e o).2.vehicleId = some e.vehicleId := by
  rcases h : e.recommendedAction <;> rcases o <;> simp [vehicleStep, h]

theorem execVehicles_vehicleId_isSome (off : Int) (outs : Nat → Except String Unit) :
    ∀ (vs : List VehiclePlanEntry) (i : Nat) (b : Bucket) (r : ExecRecord),
      r ∈ bucketList (execVehicles off outs i vs) b → r.vehicleId.isSome = true := by
  intro vs
  induction vs with
  | nil => intro i b r h; rcases b <;> simp [execVehicles, bucketList] at h
  | cons x rest ih =>
    intro i b r h
    rw [execVehicles_cons_bucket] at h
    rcases List.mem_append.mp h with h1 | h2
    · by_cases hc : (vehicleStep off x (outs i)).1 = b
      · simp [hc] at h1
        subst h1
        rw [vehicleStep_vehicleId]
        rfl
      · simp [hc] at h1
    · exact ih (i + 1) b r h2

theorem execPowerwalls_cons_bucket (outs : Nat → Except String Unit)
    (i : Nat) (a : PowerwallAction) (rest : List PowerwallAction) (b : Bucket) :
    bucketList (execPowerwalls outs i (a :: rest)) b =
      (match powerwallStep a (outs i) with
       | some p => if p.1 = b then [p.2] else []
       | Option.none => []) ++
      bucketList (execPowerwalls outs (i + 1) rest) b := by
  rcases hp : powerwallStep a (outs i) with _ | ⟨b', r⟩
  · rcases b <;> simp [execPowerwalls, hp, bucketList]
  · rcases b' <;> rcases b <;> simp [execPowerwalls, hp, bucketList]

theorem execPowerwalls_mem_bucket (outs : Nat → Except String Unit) :
    ∀ (as : List PowerwallAction) (i j : Nat) (a : PowerwallAction)
      (b : Bucket) (r : ExecRecord),
      as[j]? = some a → powerwallStep a (outs (i + j)) = some (b, r) →
      r ∈ bucketList (execPowerwalls outs i as) b := by
  intro as
  induction as with
  | nil => intro i j a b r h _; simp at h
  | cons x rest ih =>
    intro i j a b r h hp
    cases j with
    | zero =>
      simp at h
      subst h
      have hp' : powerwallStep x (outs i) = some (b, r) := hp
      rw [execPowerwalls_cons_bucket]
      simp [hp']
    | succ j' =>
      simp at h
      have harith : i + (j' + 1) = (i + 1) + j' := by omega
      rw [harith] at hp
      rw [execPowerwalls_cons_bucket]
      exact List.mem_append_right _ (ih (i + 1) j' a b r h hp)

theorem powerwallStep_vehicleId_none (a : PowerwallAction)
    (o : Except String Unit) (b : Bucket) (r : ExecRecord)
    (h : powerwallStep a o = some (b, r)) : r.vehicleId = Option.none := by
  by_cases hc : (a.action == "increase_backup_reserve") = true <;>
    rcases o <;> simp [powerwallStep, hc] at h <;> simp [← h.2]

theorem execPowerwalls_vehicleId_none (outs : Nat → Except String Unit) :
    ∀ (as : List PowerwallAction) (i : Nat) (b : Bucket) (r : ExecRecord),
      r ∈ bucketList (execPowerwalls outs i as) b → r.vehicleId = Option.none := by
  intro as
  induction as with
  | nil => intro i b r h; rcases b <;> simp [execPowerwalls, bucketList] at h
  | cons x rest ih =>
    intro i b r h
    rw [execPowerwalls_cons_bucket] at h
    rcases List.mem_append.mp h with h1 | h2
    · rcases hp : powerwallStep x (outs i) with _ | ⟨b', r'⟩ <;> rw [hp] at h1
      · simp at h1
      · by_cases hc : b' = b
        · subst hc
          simp at h1
          subst h1
          exact powerwallStep_vehicleId_none _ _ _ _ hp
        · simp [hc] at h1
    · exact ih (i + 1) b r h2

theorem execPowerwalls_skipped_nil (outs : Nat → Except String Unit) :
    ∀ (as : List PowerwallAction) (i : Nat),
      (execPowerwalls outs i as).skipped = [] := by
  intro as
  induction as with
  | nil => intro i; rfl
  | cons x rest ih =>
    intro i
    rcases hp : powerwallStep x (outs i) with _ | ⟨b', r⟩
    · simp [execPowerwalls, hp, ih (i + 1)]
    · rcases b' <;> simp [execPowerwalls, hp, ih (i + 1)] <;>
      · rcases hx : (x.action == "increase_backup_reserve") <;>
          rcases ho : outs i <;> simp [powerwallStep, hx, ho] at hp <;>
            simp_all

theorem bucketList_executeChargingPlan (off : Int)
    (vOuts pOuts : Nat → Except String Unit) (plan : ChargingPlan) (b : Bucket) :
    bucketList (executeChargingPlan off vOuts pOuts plan) b =
      bucketList (execVehicles off vOuts 0 plan.vehicles) b ++
      bucketList (execPowerwalls pOuts 0 plan.powerwallActions) b := by
  rcases b <;> simp [executeChargingPlan, bucketList]

/-- C8: `executeChargingPlan` places every vehicle entry of the input plan
into exactly one of executed/failed/skipped — the vehicle-record counts of
the three lists sum to the number of vehicle entries, and each entry's
record lands in the bucket determined by its own action and its own
command outcome (success of a `start_charging`/`delay_charging`/
`schedule_off_peak` command → executed, exception → failed,
`queue_charging`/`none` → skipped).  An exception on one entry never
prevents later entries from being accounted (the characterization holds
for every index `j` regardless of the other outcomes), and the storage
level actions are processed and accounted the same way afterwards. -/
theorem executeChargingPlan_partition (off : Int)
    (vOuts pOuts : Nat → Except String Unit) (plan : ChargingPlan) :
    ((executeChargingPlan off vOuts pOuts plan).executed.countP
        (fun r => r.vehicleId.isSome) +
      (executeChargingPlan off vOuts pOuts plan).failed.countP
        (fun r => r.vehicleId.isSome) +
      (executeChargingPlan off vOuts pOuts plan).skipped.length
      = plan.vehicles.length) ∧
    (∀ j e, plan.vehicles[j]? = some e →
      (vehicleStep off e (vOuts j)).2 ∈
        bucketList (executeChargingPlan off vOuts pOuts plan)
          (vehicleStep off e (vOuts j)).1) ∧
    (∀ j e, plan.vehicles[j]? = some e →
      ((e.recommendedAction = RecAction.start_charging ∨
        e.recommendedAction = RecAction.delay_charging ∨
        e.recommendedAction = RecAction.schedule_off_peak) →
        ((∃ u, vOuts j = Except.ok u) →
          (vehicleStep off e (vOuts j)).1 = Bucket.executed) ∧
        (∀ msg, vOuts j = Except.error msg →
          (vehicleStep off e (vOuts j)).1 = Bucket.failed ∧
          (vehicleStep off e (vOuts j)).2 =
            ⟨some e.vehicleId, actionString e.recommendedAction, msg⟩)) ∧
      ((e.recommendedAction = RecAction.queue_charging ∨
        e.recommendedAction = RecAction.none) →
        (vehicleStep off e (vOuts j)).1 = Bucket.skipped)) ∧
    (∀ j a, plan.powerwallActions[j]? = some a →
      a.action = "increase_backup_reserve" →
      ((∃ u, pOuts j = Except.ok u) →
        (⟨Option.none, "increase_backup_reserve",
          "Backup reserve increased to " ++ toString a.recommendedReserve ++ "%"⟩ :
          ExecRecord) ∈ (executeChargingPlan off vOuts pOuts plan).executed) ∧
      (∀ msg, pOuts j = Except.error msg →
        (⟨Option.none, a.action, msg⟩ : ExecRecord) ∈
          (executeChargingPlan off vOuts pOuts plan).failed)) := by
  refine ⟨?_, ?_, ?_, ?_⟩
  · have hv := execVehicles_length off vOuts plan.vehicles 0
    have hce : (execVehicles off vOuts 0 plan.vehicles).executed.countP
        (fun r => r.vehicleId.isSome) =
        (execVehicles off vOuts 0 plan.vehicles).executed.length :=
      List.countP_eq_length.mpr (fun r hr =>
        execVehicles_vehicleId_isSome off vOuts plan.vehicles 0 Bucket.executed r hr)
    have hcf : (execVehicles off vOuts 0 plan.vehicles).failed.countP
        (fun r => r.vehicleId.isSome) =
        (execVehicles off vOuts 0 plan.vehicles).failed.length :=
      List.countP_eq_length.mpr (fun r hr =>
        execVehicles_vehicleId_isSome off vOuts plan.vehicles 0 Bucket.failed r hr)
    have hpe : (execPowerwalls pOuts 0 plan.powerwallActions).executed.countP
        (fun r => r.vehicleId.isSome) = 0 :=
      List.countP_eq_zero.mpr (fun r hr => by
        have := execPowerwalls_vehicleId_none pOuts plan.powerwallActions 0
          Bucket.executed r hr
        simp [this])
    have hpf : (execPowerwalls pOuts 0 plan.powerwallActions).failed.countP
        (fun r => r.vehicleId.isSome) = 0 :=
      List.countP_eq_zero.mpr (fun r hr => by
        have := execPowerwalls_vehicleId_none pOuts plan.powerwallActions 0
          Bucket.failed r hr
        simp [this])
    have hps := execPowerwalls_skipped_nil pOuts plan.powerwallActions 0
    simp [executeChargingPlan, List.countP_append, hce, hcf, hpe, hpf, hps]
    omega
  · intro j e h
    have hm := execVehicles_mem_bucket off vOuts plan.vehicles 0 j e h
    rw [Nat.zero_add] at hm
    rw [bucketList_executeChargingPlan]
    exact List.mem_append_left _ hm
  · intro j e h
    refine ⟨fun hact => ⟨fun hok => ?_, fun msg herr => ?_⟩, fun hact => ?_⟩
    · obtain ⟨u, hu⟩ := hok
      rcases hact with h1 | h1 | h1 <;> simp [vehicleStep, h1, hu]
    · rcases hact with h1 | h1 | h1 <;> simp [vehicleStep, h1, herr]
    · rcases hact with h1 | h1 <;> simp [vehicleStep, h1]
  · intro j a h hact
    constructor
    · intro hok
      obtain ⟨u, hu⟩ := hok
      have hstep : powerwallStep a (pOuts (0 + j)) = some (Bucket.executed,
          ⟨Option.none, "increase_backup_reserve",
            "Backup reserve increased to " ++ toString a.recommendedReserve ++ "%"⟩) := by
        rw [Nat.zero_add, hu]
        simp [powerwallStep, hact]
      have := execPowerwalls_mem_bucket pOuts plan.powerwallActions 0 j a
        Bucket.executed _ h hstep
      rw [show (executeChargingPlan off vOuts pOuts plan).executed =
        bucketList (executeChargingPlan off vOuts pOuts plan) Bucket.executed from rfl,
        bucketList_executeChargingPlan]
      exact List.mem_append_right _ this
    · intro msg herr
      have hstep : powerwallStep a (pOuts (0 + j)) = some (Bucket.failed,
          ⟨Option.none, a.action, msg⟩) := by
        rw [Nat.zero_add, herr]
        simp [powerwallStep, hact]
      have := execPowerwalls_mem_bucket pOuts plan.powerwallActions 0 j a
        Bucket.failed _ h hstep
      rw [show (executeChargingPlan off vOuts pOuts plan).failed =
        bucketList (executeChargingPlan off vOuts pOuts plan) Bucket.failed from rfl,
        bucketList_executeChargingPlan]
      exact List.mem_append_right _ this

/-- Concrete three-entry plan used to witness C8: a `start_charging` entry
whose command succeeds, a `delay_charging` entry whose command throws, and
a `queue_charging` entry, plus one powerwall action whose write fails. -/
def samplePlan : ChargingPlan :=
  { vehicles :=
      [ ⟨"v1", "V1", 60, 80, 20, true, Priority.normal, RecAction.start_charging, some "r"⟩
      , ⟨"v2", "V2", 10, 80, 70, true, Priority.normal, RecAction.delay_charging, some "r"⟩
      , ⟨"v3", "V3", 50, 80, 30, true, Priority.normal, RecAction.queue_charging, some "r"⟩ ]
    powerwallActions := [⟨"increase_backup_reserve", 20, 30, "low"⟩]
    recommendations := [] }

/-- Vehicle-command outcomes for `samplePlan`: entry 1 throws. -/
def sampleVehicleOutcomes : Nat → Except String Unit :=
  fun j => if j = 1 then Except.error "boom" else Except.ok ()

/-- Powerwall-write outcomes for `samplePlan`: the write fails. -/
def samplePowerwallOutcomes : Nat → Except String Unit :=
  fun _ => Except.error "pw down"

/-- Witness for C8: on `samplePlan`, entry 0 is executed, entry 1 fails with
its own error, entry 2 is skipped, the failing powerwall write is accounted
in `failed`, and the three vehicle-record counts sum to 3. -/
theorem executeChargingPlan_partition_witness :
    ((executeChargingPlan 99 sampleVehicleOutcomes samplePowerwallOutcomes
        samplePlan).executed.countP (fun r => r.vehicleId.isSome) +
      (executeChargingPlan 99 sampleVehicleOutcomes samplePowerwallOutcomes
        samplePlan).failed.countP (fun r => r.vehicleId.isSome) +
      (executeChargingPlan 99 sampleVehicleOutcomes samplePowerwallOutcomes
        samplePlan).skipped.length = samplePlan.vehicles.length) ∧
    (⟨some "v1", "start_charging", "Charging started successfully"⟩ : ExecRecord) ∈
      (executeChargingPlan 99 sampleVehicleOutcomes samplePowerwallOutcomes
        samplePlan).executed ∧
    (⟨some "v2", "delay_charging", "boom"⟩ : ExecRecord) ∈
      (executeChargingPlan 99 sampleVehicleOutcomes samplePowerwallOutcomes
        samplePlan).failed ∧
    (⟨some "v3", "queue_charging", "Added to charging queue"⟩ : ExecRecord) ∈
      (executeChargingPlan 99 sampleVehicleOutcomes samplePowerwallOutcomes
        samplePlan).skipped ∧
    (⟨Option.none, "increase_backup_reserve", "pw down"⟩ : ExecRecord) ∈
      (executeChargingPlan 99 sampleVehicleOutcomes samplePowerwallOutcomes
        samplePlan).failed := by
  have h := executeChargingPlan_partition 99 sampleVehicleOutcomes
    samplePowerwallOutcomes samplePlan
  refine ⟨h.1, ?_, ?_, ?_, ?_⟩
  · have hm := h.2.1 0 ⟨"v1", "V1", 60, 80, 20, true, Priority.normal,
      RecAction.start_charging, some "r"⟩ rfl
    simpa [vehicleStep, sampleVehicleOutcomes, bucketList] using hm
  · have hm := h.2.1 1 ⟨"v2", "V2", 10, 80, 70, true, Priority.normal,
      RecAction.delay_charging, some "r"⟩ rfl
    simpa [vehicleStep, sampleVehicleOutcomes, bucketList] using hm
  · have hm := h.2.1 2 ⟨"v3", "V3", 50, 80, 30, true, Priority.normal,
      RecAction.queue_charging, some "r"⟩ rfl
    simpa [vehicleStep, sampleVehicleOutcomes, bucketList] using hm
  · exact (h.2.2.2 0 ⟨"increase_backup_reserve", 20, 30, "low"⟩ rfl rfl).2
      "pw down" rfl

theorem vehiclePlanFor_eq_some {opts : PlanOptions}
    {getData : String → Except String (Option ChargeState)}
    {pwLevel solar load : Int} {v : Vehicle} {e : VehiclePlanEntry}
    (h : vehiclePlanFor opts getData pwLevel solar load v = some e) :
    ∃ cs, getData v.id = Except.ok (some cs) ∧
      e = buildVehicleEntry opts v cs pwLevel solar load := by
  unfold vehiclePlanFor at h
  by_cases hs : (v.state == "online") = true
  · rw [if_pos hs] at h
    rcases hg : getData v.id with err | ocs
    · rw [hg] at h; simp at h
    · rcases ocs with _ | cs
      · rw [hg] at h; simp at h
      · rw [hg] at h
        simp at h
        exact ⟨cs, rfl, h.symm⟩
  · rw [if_neg hs] at h
    simp at h

theorem buildVehicleEntry_action (opts : PlanOptions) (v : Vehicle)
    (cs : ChargeState) (pwLevel solar load : Int) :
    (buildVehicleEntry opts v cs pwLevel solar load).recommendedAction =
      (decideAction (buildVehicleEntry opts v cs pwLevel solar load).chargingNeeded
        (buildVehicleEntry opts v cs pwLevel solar load).isPluggedIn
        pwLevel opts.preservePowerwallReserve solar load).1 := rfl

theorem mem_buildVehiclePlans_action {opts : PlanOptions}
    {getData : String → Except String (Option ChargeState)}
    {pwLevel solar load : Int} {vehicles : List Vehicle} {e : VehiclePlanEntry}
    (h : e ∈ buildVehiclePlans opts getData pwLevel solar load vehicles) :
    e.recommendedAction =
      (decideAction e.chargingNeeded e.isPluggedIn pwLevel
        opts.preservePowerwallReserve solar load).1 := by
  obtain ⟨v, _, hv⟩ := List.mem_filterMap.mp h
  obtain ⟨cs, _, he⟩ := vehiclePlanFor_eq_some hv
  subst he
  exact buildVehicleEntry_action opts v cs pwLevel solar load

theorem decideAction_fst_ne_queue (n : Int) (p : Bool) (pw r s l : Int) :
    (decideAction n p pw r s l).1 ≠ RecAction.queue_charging := by
  unfold decideAction
  split_ifs <;> simp

theorem decideAction_none_iff (n : Int) (p : Bool) (pw r s l : Int) :
    (decideAction n p pw r s l).1 = RecAction.none ↔ ¬(n > 0 ∧ p = true) := by
  unfold decideAction
  split_ifs with h h1 h2 h3 <;> simp_all

theorem mem_buildVehiclePlans_ne_queue {opts : PlanOptions}
    {getData : String → Except String (Option ChargeState)}
    {pwLevel solar load : Int} {vehicles : List Vehicle} {e : VehiclePlanEntry}
    (h : e ∈ buildVehiclePlans opts getData pwLevel solar load vehicles) :
    e.recommendedAction ≠ RecAction.queue_charging := by
  rw [mem_buildVehiclePlans_action h]
  exact decideAction_fst_ne_queue _ _ _ _ _ _

theorem enum_fst_injective {α : Type} {l : List α} {p q : Nat × α}
    (hp : p ∈ l.enum) (hq : q ∈ l.enum) (h : p.1 = q.1) : p = q := by
  have hp' := List.mem_enum_iff_getElem?.mp hp
  have hq' := List.mem_enum_iff_getElem?.mp hq
  rw [h] at hp'
  rw [hp'] at hq'
  exact Prod.ext h (Option.some_injective _ hq')

theorem snd_mem_of_mem_enum {α : Type} {l : List α} {p : Nat × α}
    (hp : p ∈ l.enum) : p.2 ∈ l :=
  List.getElem?_mem (List.mem_enum_iff_getElem?.mp hp)

theorem cmpLe_demote_right (a b : VehiclePlanEntry) :
    cmpLe a (demoteEntry b) = cmpLe a b := rfl

theorem demoteEntry_action (e : VehiclePlanEntry) :
    (demoteEntry e).recommendedAction = RecAction.queue_charging := rfl

theorem countP_snd_enum {α : Type} (l : List α) (q : α → Bool) :
    l.enum.countP (fun p => q p.2) = l.countP q := by
  have h := List.countP_map q Prod.snd l.enum
  rw [List.enum_map_snd] at h
  exact h.symm

theorem applyAdmissionControl_spec (m : Nat) (vs : List VehiclePlanEntry)
    (hnq : ∀ e ∈ vs, e.recommendedAction ≠ RecAction.queue_charging) :
    ((applyAdmissionControl m vs).countP
        (fun e => e.recommendedAction == RecAction.start_charging) =
      min (vs.countP (fun e => e.recommendedAction == RecAction.start_charging)) m) ∧
    ((applyAdmissionControl m vs).countP
        (fun e => e.recommendedAction == RecAction.queue_charging) =
      vs.countP (fun e => e.recommendedAction == RecAction.start_charging) -
        min (vs.countP (fun e => e.recommendedAction == RecAction.start_charging)) m) ∧
    (∀ k ∈ applyAdmissionControl m vs,
      k.recommendedAction = RecAction.start_charging →
      ∀ d ∈ applyAdmissionControl m vs,
        d.recommendedAction = RecAction.queue_charging → cmpLe k d = true) ∧
    (∀ e ∈ applyAdmissionControl m vs,
      e ∈ vs ∨ ∃ e0 ∈ vs, e0.recommendedAction = RecAction.start_charging ∧
        e = demoteEntry e0) := by
  have hcands : (vs.enum.filter
      (fun p => p.2.recommendedAction == RecAction.start_charging)).length =
      vs.countP (fun e => e.recommendedAction == RecAction.start_charging) := by
    rw [← List.countP_eq_length_filter]
    exact countP_snd_enum vs (fun e => e.recommendedAction == RecAction.start_charging)
  by_cases hover : (vs.enum.filter
      (fun p => p.2.recommendedAction == RecAction.start_charging)).length > m
  case neg =>
    have hres : applyAdmissionControl m vs = vs := by
      simp only [applyAdmissionControl]
      rw [if_neg hover]
    have hcm : vs.countP (fun e => e.recommendedAction == RecAction.start_charging) ≤ m := by
      omega
    have hq0 : vs.countP (fun e => e.recommendedAction == RecAction.queue_charging) = 0 :=
      List.countP_eq_zero.mpr (fun e he => by simp [hnq e he])
    refine ⟨?_, ?_, ?_, ?_⟩
    · rw [hres]; omega
    · rw [hres, hq0]; omega
    · intro k _ _ d hd hdq
      exact absurd hdq (hnq d (hres ▸ hd))
    · intro e he
      exact Or.inl (hres ▸ he)
  case pos =>
    have hres : applyAdmissionControl m vs = vs.enum.map
        (fun p => if p.1 ∈ (((List.insertionSort admissionOrder
            (vs.enum.filter (fun p =>
              p.2.recommendedAction == RecAction.start_charging))).drop m).map
              Prod.fst)
          then demoteEntry p.2 else p.2) := by
      simp only [applyAdmissionControl]
      rw [if_pos hover]
    set cands := vs.enum.filter
      (fun p => p.2.recommendedAction == RecAction.start_charging) with hcands_def
    set sorted := List.insertionSort admissionOrder cands with hsorted_def
    set dIdx := (sorted.drop m).map Prod.fst with hdIdx_def
    set g := fun p : Nat × VehiclePlanEntry =>
      if p.1 ∈ dIdx then demoteEntry p.2 else p.2 with hg_def
    have hperm : sorted.Perm cands := List.perm_insertionSort _ _
    have hsorted : List.Sorted admissionOrder sorted := List.sorted_insertionSort _ _
    have henodup : (vs.enum.map Prod.fst).Nodup := by
      rw [List.enum_map_fst]; exact List.nodup_range _
    have hcnodup : (cands.map Prod.fst).Nodup :=
      (List.Sublist.map Prod.fst (List.filter_sublist _)).nodup henodup
    have hsnodup : (sorted.map Prod.fst).Nodup :=
      ((hperm.map Prod.fst).nodup_iff).mpr hcnodup
    have hsplit : sorted.take m ++ sorted.drop m = sorted := List.take_append_drop m sorted
    have hdom : ∀ p ∈ sorted.take m, ∀ q ∈ sorted.drop m, admissionOrder p q := by
      have h : List.Pairwise admissionOrder (sorted.take m ++ sorted.drop m) := by
        rw [hsplit]; exact hsorted
      exact (List.pairwise_append.mp h).2.2
    have hkeep : ∀ p ∈ sorted.take m, p.1 ∉ dIdx := by
      intro p hp hin
      have hnd : ((sorted.take m).map Prod.fst ++ (sorted.drop m).map Prod.fst).Nodup := by
        rw [← List.map_append, hsplit]; exact hsnodup
      exact (List.nodup_append.mp hnd).2.2 (List.mem_map_of_mem Prod.fst hp) hin
    have hdemC : ∀ i ∈ dIdx, ∃ q, q ∈ sorted.drop m ∧ q.1 = i ∧
        (q.2.recommendedAction == RecAction.start_charging) = true := by
      intro i hi
      obtain ⟨q, hq, hqi⟩ := List.mem_map.mp hi
      have hqc : q ∈ cands := (hperm.mem_iff).mp (List.mem_of_mem_drop hq)
      exact ⟨q, hq, hqi, (List.mem_filter.mp hqc).2⟩
    have hmemtag : ∀ q ∈ sorted.drop m, q ∈ vs.enum := fun q hq =>
      (List.mem_filter.mp ((hperm.mem_iff).mp (List.mem_of_mem_drop hq))).1
    have hlen : sorted.length =
        vs.countP (fun e => e.recommendedAction == RecAction.start_charging) := by
      rw [hperm.length_eq, hcands]
    refine ⟨?_, ?_, ?_, ?_⟩
    · -- start_charging count = m = min c m
      rw [hres]
      rw [List.countP_map]
      have h2 : vs.enum.countP
          ((fun e => e.recommendedAction == RecAction.start_charging) ∘ g) =
          vs.enum.countP (fun p => decide (p.1 ∉ dIdx) &&
            (p.2.recommendedAction == RecAction.start_charging)) := by
        refine List.countP_congr (fun p _ => ?_)
        by_cases hd : p.1 ∈ dIdx <;>
          simp [hg_def, hd, demoteEntry_action, Function.comp]
      rw [h2]
      have h3 : vs.enum.countP (fun p => decide (p.1 ∉ dIdx) &&
            (p.2.recommendedAction == RecAction.start_charging)) =
          cands.countP (fun p => decide (p.1 ∉ dIdx)) := by
        rw [hcands_def, List.countP_filter]
      rw [h3, ← hperm.countP_eq]
      have h5 : sorted.countP (fun p => decide (p.1 ∉ dIdx)) =
          (sorted.take m).countP (fun p => decide (p.1 ∉ dIdx)) +
          (sorted.drop m).countP (fun p => decide (p.1 ∉ dIdx)) := by
        conv_lhs => rw [← hsplit]
        rw [List.countP_append]
      have h6 : (sorted.drop m).countP (fun p => decide (p.1 ∉ dIdx)) = 0 :=
        List.countP_eq_zero.mpr (fun q hq => by
          simp [List.mem_map_of_mem Prod.fst hq])
      have h7 : (sorted.take m).countP (fun p => decide (p.1 ∉ dIdx)) =
          (sorted.take m).length :=
        List.countP_eq_length.mpr (fun p hp => by simp [hkeep p hp])
      have h8 : (sorted.take m).length = m := by
        rw [List.length_take]
        omega
      rw [h5, h6, h7, h8]
      omega
    · -- queue_charging count = c - m
      rw [hres]
      rw [List.countP_map]
      have h2 : vs.enum.countP
          ((fun e => e.recommendedAction == RecAction.queue_charging) ∘ g) =
          vs.enum.countP (fun p => decide (p.1 ∈ dIdx)) := by
        refine List.countP_congr (fun p hp => ?_)
        by_cases hd : p.1 ∈ dIdx
        · simp [hg_def, hd, demoteEntry_action, Function.comp]
        · have hpv : p.2 ∈ vs := snd_mem_of_mem_enum hp
          simp [hg_def, hd, Function.comp, hnq p.2 hpv]
      rw [h2]
      have h3 : vs.enum.countP (fun p => decide (p.1 ∈ dIdx)) =
          (vs.enum.map Prod.fst).countP (fun i => decide (i ∈ dIdx)) := by
        rw [List.countP_map]
        rfl
      rw [h3, List.enum_map_fst]
      have hDnodup : dIdx.Nodup := by
        rw [hdIdx_def, List.map_drop]
        exact (List.drop_sublist _ _).nodup hsnodup
      have hDsub : ∀ i ∈ dIdx, i ∈ List.range vs.length := by
        intro i hi
        obtain ⟨q, hq, hqi⟩ := List.mem_map.mp hi
        have hqe : q ∈ vs.enum := hmemtag q hq
        rw [← hqi, ← List.enum_map_fst]
        exact List.mem_map_of_mem Prod.fst hqe
      have hfnodup : ((List.range vs.length).filter
          (fun i => decide (i ∈ dIdx))).Nodup :=
        (List.filter_sublist _).nodup (List.nodup_range _)
      have hpermD : ((List.range vs.length).filter
          (fun i => decide (i ∈ dIdx))).Perm dIdx := by
        rw [List.perm_ext_iff_of_nodup hfnodup hDnodup]
        intro i
        simp only [List.mem_filter, decide_eq_true_eq]
        constructor
        · exact fun h => h.2
        · exact fun h => ⟨hDsub i h, h⟩
      rw [List.countP_eq_length_filter, hpermD.length_eq]
      rw [hdIdx_def, List.length_map, List.length_drop]
      omega
    · -- kept dominate demoted
      intro k hk hks d hd hdq
      rw [hres] at hk hd
      obtain ⟨p, hp, hpk⟩ := List.mem_map.mp hk
      obtain ⟨q', hq', hqd⟩ := List.mem_map.mp hd
      by_cases hdp : p.1 ∈ dIdx
      · exfalso
        rw [hg_def] at hpk
        simp only [if_pos hdp] at hpk
        rw [← hpk, demoteEntry_action] at hks
        exact absurd hks (by simp)
      · have hk2 : k = p.2 := by
          rw [hg_def] at hpk
          simp only [if_neg hdp] at hpk
          exact hpk.symm
        have hpc : p ∈ cands := by
          rw [hcands_def]
          refine List.mem_filter.mpr ⟨hp, ?_⟩
          rw [← hk2, hks]
          rfl
        have hps : p ∈ sorted := hperm.mem_iff.mpr hpc
        have hptake : p ∈ sorted.take m := by
          have : p ∈ sorted.take m ++ sorted.drop m := by rw [hsplit]; exact hps
          rcases List.mem_append.mp this with h1 | h2
          · exact h1
          · exact absurd (List.mem_map_of_mem Prod.fst h2) hdp
        by_cases hdq' : q'.1 ∈ dIdx
        · have hd2 : d = demoteEntry q'.2 := by
            rw [hg_def] at hqd
            simp only [if_pos hdq'] at hqd
            exact hqd.symm
          obtain ⟨q, hq, hqi, _⟩ := hdemC q'.1 hdq'
          have hqq : q = q' := enum_fst_injective (hmemtag q hq) hq' hqi
          subst hqq
          have horder : admissionOrder p q := hdom p hptake q hq
          rw [hk2, hd2, cmpLe_demote_right]
          exact horder
        · exfalso
          rw [hg_def] at hqd
          simp only [if_neg hdq'] at hqd
          rw [← hqd] at hdq
          exact absurd hdq (hnq q'.2 (snd_mem_of_mem_enum hq'))
    · -- provenance of each entry
      intro e he
      rw [hres] at he
      obtain ⟨p, hp, hpe⟩ := List.mem_map.mp he
      by_cases hd : p.1 ∈ dIdx
      · right
        obtain ⟨q, hq, hqi, hqa⟩ := hdemC p.1 hd
        have hqq : q = p := enum_fst_injective (hmemtag q hq) hp hqi
        subst hqq
        refine ⟨q.2, snd_mem_of_mem_enum hp, by simpa using hqa, ?_⟩
        rw [hg_def] at hpe
        simp only [if_pos hd] at hpe
        exact hpe.symm
      · left
        rw [hg_def] at hpe
        simp only [if_neg hd] at hpe
        rw [← hpe]
        exact snd_mem_of_mem_enum hp

theorem cmpLe_spec {a b : VehiclePlanEntry} (h : cmpLe a b = true) :
    (b.priority = Priority.high → a.priority = Priority.high) ∧
    (a.priority = b.priority → b.chargingNeeded ≤ a.chargingNeeded) := by
  unfold cmpLe at h
  rcases ha : a.priority <;> rcases hb : b.priority <;>
    rw [ha, hb] at h <;> simp_all [ha, hb]

theorem demoteEntry_chargingNeeded (e : VehiclePlanEntry) :
    (demoteEntry e).chargingNeeded = e.chargingNeeded := rfl

theorem demoteEntry_isPluggedIn (e : VehiclePlanEntry) :
    (demoteEntry e).isPluggedIn = e.isPluggedIn := rfl

theorem createOptimalChargingPlan_vehicles (opts : PlanOptions)
    (vehicles : List Vehicle) (getData : String → Except String (Option ChargeState))
    (pwStatus : Option PowerwallStatus) :
    (createOptimalChargingPlan opts vehicles getData pwStatus).vehicles =
      applyAdmissionControl opts.maxSimultaneousCharging
        (buildVehiclePlans opts getData
          ((pwStatus.map PowerwallStatus.percentage_charged).getD 0)
          ((pwStatus.map PowerwallStatus.solar_power).getD 0)
          ((pwStatus.map PowerwallStatus.load_power).getD 0) vehicles) := rfl

/-- C2: after admission control, every plan has at most
`maxSimultaneousCharging` entries with `start_charging`; the kept
`start_charging` entries dominate every demoted (`queue_charging`) entry
in the priority order — a kept entry is `high` whenever a demoted one is,
and among equal priorities the kept entry needs at least as much charge —
and exactly the pre-admission excess `start_charging` candidates end up
as `queue_charging`. -/
theorem plan_admission_control (opts : PlanOptions) (vehicles : List Vehicle)
    (getData : String → Except String (Option ChargeState))
    (pwStatus : Option PowerwallStatus) :
    ((createOptimalChargingPlan opts vehicles getData pwStatus).vehicles.countP
        (fun e => e.recommendedAction == RecAction.start_charging) ≤
      opts.maxSimultaneousCharging) ∧
    (∀ k ∈ (createOptimalChargingPlan opts vehicles getData pwStatus).vehicles,
      k.recommendedAction = RecAction.start_charging →
      ∀ d ∈ (createOptimalChargingPlan opts vehicles getData pwStatus).vehicles,
        d.recommendedAction = RecAction.queue_charging →
        (d.priority = Priority.high → k.priority = Priority.high) ∧
        (k.priority = d.priority → d.chargingNeeded ≤ k.chargingNeeded)) ∧
    ((createOptimalChargingPlan opts vehicles getData pwStatus).vehicles.countP
        (fun e => e.recommendedAction == RecAction.start_charging) =
      min ((buildVehiclePlans opts getData
          ((pwStatus.map PowerwallStatus.percentage_charged).getD 0)
          ((pwStatus.map PowerwallStatus.solar_power).getD 0)
          ((pwStatus.map PowerwallStatus.load_power).getD 0) vehicles).countP
          (fun e => e.recommendedAction == RecAction.start_charging))
        opts.maxSimultaneousCharging) ∧
    ((createOptimalChargingPlan opts vehicles getData pwStatus).vehicles.countP
        (fun e => e.recommendedAction == RecAction.queue_charging) =
      (buildVehiclePlans opts getData
          ((pwStatus.map PowerwallStatus.percentage_charged).getD 0)
          ((pwStatus.map PowerwallStatus.solar_power).getD 0)
          ((pwStatus.map PowerwallStatus.load_power).getD 0) vehicles).countP
          (fun e => e.recommendedAction == RecAction.start_charging) -
        min ((buildVehiclePlans opts getData
          ((pwStatus.map PowerwallStatus.percentage_charged).getD 0)
          ((pwStatus.map PowerwallStatus.solar_power).getD 0)
          ((pwStatus.map PowerwallStatus.load_power).getD 0) vehicles).countP
          (fun e => e.recommendedAction == RecAction.start_charging))
          opts.maxSimultaneousCharging) := by
  have hnq : ∀ e ∈ buildVehiclePlans opts getData
      ((pwStatus.map PowerwallStatus.percentage_charged).getD 0)
      ((pwStatus.map PowerwallStatus.solar_power).getD 0)
      ((pwStatus.map PowerwallStatus.load_power).getD 0) vehicles,
      e.recommendedAction ≠ RecAction.queue_charging :=
    fun e he => mem_buildVehiclePlans_ne_queue he
  have h := applyAdmissionControl_spec opts.maxSimultaneousCharging _ hnq
  rw [createOptimalChargingPlan_vehicles]
  refine ⟨by rw [h.1]; omega, ?_, h.1, h.2.1⟩
  intro k hk hks d hd hdq
  exact cmpLe_spec (h.2.2.1 k hk hks d hd hdq)

/-- Witness for C2 (scenario D): three eligible vehicles, limit 2, vehicle
`c` high-priority with the least need — `c` and the larger-need normal
vehicle `b` keep `start_charging`, vehicle `a` is demoted to
`queue_charging`, and the kept/demoted pair `(b, a)` satisfies the
dominance property. -/
theorem plan_admission_control_witness :
    ((createOptimalChargingPlan { priorityVehicles := ["c"] }
        [⟨"a", "A", "online"⟩, ⟨"b", "B", "online"⟩, ⟨"c", "C", "online"⟩]
        (fun id => Except.ok (some (if id == "a" then ⟨50, true, "Engaged"⟩
          else if id == "b" then ⟨40, true, "Engaged"⟩
          else ⟨70, true, "Engaged"⟩)))
        (some ⟨95, 0, 0, 0⟩)).vehicles.countP
        (fun e => e.recommendedAction == RecAction.start_charging) ≤ 2) ∧
    (((⟨"a", "A", 50, 80, 30, true, Priority.normal, RecAction.queue_charging,
        some "Waiting for charging slot to become available"⟩ :
        VehiclePlanEntry).priority = Priority.high →
      (⟨"b", "B", 40, 80, 40, true, Priority.normal, RecAction.start_charging,
        some "High Powerwall level allows charging"⟩ :
        VehiclePlanEntry).priority = Priority.high) ∧
     ((⟨"b", "B", 40, 80, 40, true, Priority.normal, RecAction.start_charging,
        some "High Powerwall level allows charging"⟩ :
        VehiclePlanEntry).priority =
      (⟨"a", "A", 50, 80, 30, true, Priority.normal, RecAction.queue_charging,
        some "Waiting for charging slot to become available"⟩ :
        VehiclePlanEntry).priority →
      (⟨"a", "A", 50, 80, 30, true, Priority.normal, RecAction.queue_charging,
        some "Waiting for charging slot to become available"⟩ :
        VehiclePlanEntry).chargingNeeded ≤
      (⟨"b", "B", 40, 80, 40, true, Priority.normal, RecAction.start_charging,
        some "High Powerwall level allows charging"⟩ :
        VehiclePlanEntry).chargingNeeded)) := by
  have h := plan_admission_control { priorityVehicles := ["c"] }
    [⟨"a", "A", "online"⟩, ⟨"b", "B", "online"⟩, ⟨"c", "C", "online"⟩]
    (fun id => Except.ok (some (if id == "a" then ⟨50, true, "Engaged"⟩
      else if id == "b" then ⟨40, true, "Engaged"⟩
      else ⟨70, true, "Engaged"⟩)))
    (some ⟨95, 0, 0, 0⟩)
  refine ⟨h.1, ?_⟩
  exact h.2.1 _ (by decide) rfl _ (by decide) rfl

/-- C1 counterexample: with three identical plugged-in, under-target
vehicles, storage level 95 and reserve floor 20 (so the storage-level
branch fires for each), and the default `maxSimultaneousCharging = 2`,
the third produced entry has `chargingNeeded > 0` and `isPluggedIn` yet
its action is `queue_charging`, not the `start_charging` demanded by the
first-match-wins policy — admission control demoted it. -/
theorem plan_decision_policy_counterexample :
    ((createOptimalChargingPlan {}
        [⟨"a", "A", "online"⟩, ⟨"b", "B", "online"⟩, ⟨"c", "C", "online"⟩]
        (fun _ => Except.ok (some ⟨60, true, "Engaged"⟩))
        (some ⟨95, 0, 0, 0⟩)).vehicles.map
      (fun e => (e.chargingNeeded, e.isPluggedIn, e.recommendedAction)) =
      [(20, true, RecAction.start_charging), (20, true, RecAction.start_charging),
       (20, true, RecAction.queue_charging)]) ∧
    ((95 : Int) > 20 + 30) := ⟨by decide, by decide⟩

/-- C1 (amended): every vehicle entry of a produced plan follows the
first-match-wins decision policy, except that an entry the policy marked
`start_charging` may have been demoted to `queue_charging` by admission
control; entries with `chargingNeeded ≤ 0` or not plugged in always keep
action `none`.  In particular, in the scenario with storage level 60,
reserve floor 20, solar 6000 W and home load 1000 W, a plugged-in
under-target vehicle receives `start_charging` via the storage-level
branch (60 > 20 + 30), not the solar branch. -/
theorem plan_decision_policy (opts : PlanOptions) (vehicles : List Vehicle)
    (getData : String → Except String (Option ChargeState))
    (pwStatus : Option PowerwallStatus) :
    (∀ e ∈ (createOptimalChargingPlan opts vehicles getData pwStatus).vehicles,
      (¬(e.chargingNeeded > 0 ∧ e.isPluggedIn = true) →
        e.recommendedAction = RecAction.none) ∧
      (e.chargingNeeded > 0 ∧ e.isPluggedIn = true →
        (e.recommendedAction =
          (decideAction e.chargingNeeded e.isPluggedIn
            ((pwStatus.map PowerwallStatus.percentage_charged).getD 0)
            opts.preservePowerwallReserve
            ((pwStatus.map PowerwallStatus.solar_power).getD 0)
            ((pwStatus.map PowerwallStatus.load_power).getD 0)).1 ∨
         ((decideAction e.chargingNeeded e.isPluggedIn
            ((pwStatus.map PowerwallStatus.percentage_charged).getD 0)
            opts.preservePowerwallReserve
            ((pwStatus.map PowerwallStatus.solar_power).getD 0)
            ((pwStatus.map PowerwallStatus.load_power).getD 0)).1 =
            RecAction.start_charging ∧
          e.recommendedAction = RecAction.queue_charging)))) ∧
    ((createOptimalChargingPlan {} [⟨"v", "V", "online"⟩]
        (fun _ => Except.ok (some ⟨60, true, "Engaged"⟩))
        (some ⟨60, 6000, 1000, 0⟩)).vehicles.map
      (fun e => (e.recommendedAction, e.reason)) =
      [(RecAction.start_charging, some "High Powerwall level allows charging")]) := by
  refine ⟨?_, by decide⟩
  intro e he
  have hnq : ∀ x ∈ buildVehiclePlans opts getData
      ((pwStatus.map PowerwallStatus.percentage_charged).getD 0)
      ((pwStatus.map PowerwallStatus.solar_power).getD 0)
      ((pwStatus.map PowerwallStatus.load_power).getD 0) vehicles,
      x.recommendedAction ≠ RecAction.queue_charging :=
    fun x hx => mem_buildVehiclePlans_ne_queue hx
  have hspec := (applyAdmissionControl_spec opts.maxSimultaneousCharging _ hnq).2.2.2
  rw [createOptimalChargingPlan_vehicles] at he
  rcases hspec e he with hmem | ⟨e0, he0, he0a, hdem⟩
  · have hact := mem_buildVehiclePlans_action hmem
    constructor
    · intro hng
      rw [hact]
      rw [decideAction_none_iff]
      exact hng
    · intro _
      exact Or.inl hact
  · have hact0 := mem_buildVehiclePlans_action he0
    have hfields : e.chargingNeeded = e0.chargingNeeded ∧
        e.isPluggedIn = e0.isPluggedIn := by
      rw [hdem]
      exact ⟨demoteEntry_chargingNeeded e0, demoteEntry_isPluggedIn e0⟩
    constructor
    · intro hng
      exfalso
      rw [hfields.1, hfields.2] at hng
      have : e0.recommendedAction = RecAction.none := by
        rw [hact0, decideAction_none_iff]
        exact hng
      rw [he0a] at this
      exact RecAction.noConfusion this
    · intro _
      right
      refine ⟨?_, by rw [hdem]; exact demoteEntry_action e0⟩
      rw [hfields.1, hfields.2, ← hact0]
      exact he0a

/-- Witness for C1 (amended): the single-vehicle storage-60/solar-6000
scenario — the entry is plugged in and under target, and its action is the
policy's `start_charging` with the storage-level reason. -/
theorem plan_decision_policy_witness :
    ((⟨"v", "V", 60, 80, 20, true, Priority.normal, RecAction.start_charging,
        some "High Powerwall level allows charging"⟩ :
        VehiclePlanEntry).chargingNeeded > 0 ∧
      (⟨"v", "V", 60, 80, 20, true, Priority.normal, RecAction.start_charging,
        some "High Powerwall level allows charging"⟩ :
        VehiclePlanEntry).isPluggedIn = true) ∧
    ((⟨"v", "V", 60, 80, 20, true, Priority.normal, RecAction.start_charging,
        some "High Powerwall level allows charging"⟩ :
        VehiclePlanEntry).recommendedAction =
      (decideAction 20 true 60 20 6000 1000).1 ∨
     ((decideAction 20 true 60 20 6000 1000).1 = RecAction.start_charging ∧
      (⟨"v", "V", 60, 80, 20, true, Priority.normal, RecAction.start_charging,
        some "High Powerwall level allows charging"⟩ :
        VehiclePlanEntry).recommendedAction = RecAction.queue_charging)) := by
  have h := (plan_decision_policy {} [⟨"v", "V", "online"⟩]
    (fun _ => Except.ok (some ⟨60, true, "Engaged"⟩))
    (some ⟨60, 6000, 1000, 0⟩)).1
    ⟨"v", "V", 60, 80, 20, true, Priority.normal, RecAction.start_charging,
      some "High Powerwall level allows charging"⟩ (by decide)
  exact ⟨by decide, (h.2 (by decide))⟩
